import Mathlib

/-!
# Verification of the maltrail sensor core (`src/sensor.py`)

A shallow embedding of the packet decoder `_process_packet`, the
`update_timer` trail-store update, and the NXDOMAIN heuristic state,
translated byte-for-byte from the Python 2 source.  Python 2 `str`
values are byte sequences, modelled as `List Nat`; `struct.unpack`
calls are modelled by explicit slice-length checks (an inexact length
raises `struct.error`, which the source catches per packet, aborting
that packet's remaining processing); dict lookups become association
lists.
-/

set_option maxRecDepth 10000

namespace Maltrail

/-- Python 2 `str`: a byte sequence. -/
abbrev Bytes := List Nat

/-- Byte-string literal helper (ASCII). -/
def str (s : String) : Bytes := s.data.map Char.toNat

/-- Python slice `l[a:b]` for non-negative bounds (never raises, clamps). -/
def pySlice (l : Bytes) (a b : Nat) : Bytes := (l.drop a).take (b - a)

/-- `ord(l[i])` where the caller has ensured `i < l.length`. -/
def bt (l : Bytes) (i : Nat) : Nat := l.getD i 0

/-- Big-endian 16-bit read (`struct.unpack("!H", ...)`). -/
def be16 (a b : Nat) : Nat := a * 256 + b

/-- `socket.ntohs` on a little-endian host: byte swap of a 16-bit value. -/
def ntohs (x : Nat) : Nat := x % 256 * 256 + x / 256

/-- Decimal digits of one byte value, as bytes. -/
def byteDec (n : Nat) : Bytes :=
  if n < 10 then [48 + n]
  else if n < 100 then [48 + n / 10, 48 + n % 10]
  else [48 + n / 100, 48 + n / 10 % 10, 48 + n % 10]

/-- `socket.inet_ntoa` on the exact 4-byte string produced by `struct.unpack("4s", ...)`. -/
def inet_ntoa (l : Bytes) : Bytes :=
  match l with
  | [a, b, c, d] => byteDec a ++ 46 :: byteDec b ++ 46 :: byteDec c ++ 46 :: byteDec d
  | _ => []

/-- Python `data.find(sub)`: least index where `sub` occurs, if any. -/
def subFind : Bytes → Bytes → Option Nat
  | [], sub => if sub = [] then some 0 else none
  | a :: rest, sub =>
    if sub.isPrefixOf (a :: rest) then some 0
    else (subFind rest sub).map (· + 1)

/-- Python `data.find(sub, start)`. -/
def subFindFrom (l sub : Bytes) (start : Nat) : Option Nat :=
  (subFind (l.drop start) sub).map (· + start)

/-- Python `s.count(c)` for a single-byte needle. -/
def countByte (l : Bytes) (c : Nat) : Nat := l.count c

/-- Python `s.split(c)` for a one-byte separator (non-collapsing; `"".split(c) = [""]`). -/
def splitByte : Bytes → Nat → List Bytes
  | [], _ => [[]]
  | a :: rest, c =>
    if a = c then [] :: splitByte rest c
    else
      match splitByte rest c with
      | h :: t => (a :: h) :: t
      | [] => [[a]]

/-- Python `c.join(parts)` for a one-byte separator. -/
def joinByte (c : Nat) : List Bytes → Bytes
  | [] => []
  | [x] => x
  | x :: y :: rest => x ++ c :: joinByte c (y :: rest)

/-- Python `s.rstrip(c)` for a one-byte argument: drops ALL trailing `c` bytes. -/
def rstripByte (l : Bytes) (c : Nat) : Bytes :=
  ((l.reverse.dropWhile (fun b => b == c)).reverse)

/-- Python `str.isspace` characters, as stripped by `str.strip()`. -/
def wsByte (b : Nat) : Bool := b == 32 || b == 9 || b == 10 || b == 11 || b == 12 || b == 13

/-- Python `s.strip()`. -/
def stripWs (l : Bytes) : Bytes :=
  ((l.dropWhile wsByte).reverse.dropWhile wsByte).reverse

/-- Python `s.rfind(c)`: greatest index of byte `c`, if any. -/
def rfindByte : Bytes → Nat → Option Nat
  | [], _ => none
  | a :: rest, c =>
    match rfindByte rest c with
    | some i => some (i + 1)
    | none => if a = c then some 0 else none

/-- `os.path.splitext` (posixpath): split off the extension after the last dot
of the basename, unless the basename up to that dot consists only of dots. -/
def splitext (p : Bytes) : Bytes × Bytes :=
  match rfindByte p 46 with
  | none => (p, [])
  | some dotIdx =>
    let fIdx := match rfindByte p 47 with | none => 0 | some s => s + 1
    if dotIdx ≥ fIdx ∧ (pySlice p fIdx dotIdx).any (fun b => b != 46) then
      (p.take dotIdx, p.drop dotIdx)
    else (p, [])

/-- Python `query[:-n]` for `n = len(domain)` (note `q[:-0] = ""`). -/
def pyDropRight (l : Bytes) (n : Nat) : Bytes :=
  if n = 0 then [] else l.take (l.length - n)

/-- First-match association-list lookup (Python dict membership/lookup). -/
def alookup {κ α : Type} [DecidableEq κ] : List (κ × α) → κ → Option α
  | [], _ => none
  | (k, v) :: rest, key => if k = key then some v else alookup rest key

/-- Python dict assignment `d[k] = v`: replace or insert. -/
def aupdate {κ α : Type} [DecidableEq κ] : List (κ × α) → κ → α → List (κ × α)
  | [], k, v => [(k, v)]
  | (k0, v0) :: rest, k, v =>
    if k0 = k then (k, v) :: rest else (k0, v0) :: aupdate rest k v

/-- The three trail namespaces (`core.enums.TRAIL`). -/
inductive TrailKind where
  | IP
  | DNS
  | URL
deriving DecidableEq

/-- One trail table: key ↦ (indicator, source). -/
abbrev TrailMap := List (Bytes × (Bytes × Bytes))

/-- The `trails` dict with its three kind keys, as read by `_process_packet`. -/
structure Trails where
  ip : TrailMap
  dns : TrailMap
  url : TrailMap

/-- `NO_SUCH_NAME_COUNTERS`: query ↦ (hour bucket, count). -/
abbrev Counters := List (Bytes × (Nat × Nat))

/-- One `log_event` alert record (source tuple order). -/
structure Event where
  sec : Nat
  usec : Nat
  srcIp : Bytes
  srcPort : Option Nat
  dstIp : Bytes
  dstPort : Option Nat
  transport : Bytes
  kind : TrailKind
  value : Bytes
  indicator : Bytes
  source : Bytes
deriving DecidableEq

/-- `ETH_LENGTH` (core.settings, value given in the spec, §6). -/
def ETH_LENGTH : Nat := 14

/-- Modelled from the spec: the `IPPROTO` constant of `core.settings` is not
under `src/`; the spec (§4.3) requires the gate `eth_protocol == IPPROTO` to
admit exactly IPv4 EtherType frames, and `eth_protocol` is
`socket.ntohs` of the big-endian ethertype, so on a little-endian host the
constant is `ntohs 0x0800 = 8`. -/
def IPPROTO : Nat := 8

/-- Modelled from the spec: `IPPROTO_LUT` of `core.settings` is not under
`src/`; the spec (§6) requires a map of IP protocol number → short name
"at minimum covering ICMP" (protocol 1). -/
def IPPROTO_LUT : List (Nat × Bytes) := [(1, str "ICMP")]

/-- Source lines 89-93 / 149-152 / 200-203: the dst-preferred `TS.IP` lookup
(`if dst_ip in trails[TRAIL.IP]: ... elif src_ip in trails[TRAIL.IP]: ...`),
instantiated by the TCP-SYN, UDP non-DNS and other-IP-protocol paths. -/
def ipAlertEvents (tsIp : TrailMap) (sec usec : Nat) (srcIp : Bytes) (srcPort : Option Nat)
    (dstIp : Bytes) (dstPort : Option Nat) (transport : Bytes) : List Event :=
  match alookup tsIp dstIp with
  | some v => [⟨sec, usec, srcIp, srcPort, dstIp, dstPort, transport, TrailKind.IP, dstIp, v.1, v.2⟩]
  | none =>
    match alookup tsIp srcIp with
    | some v => [⟨sec, usec, srcIp, srcPort, dstIp, dstPort, transport, TrailKind.IP, srcIp, v.1, v.2⟩]
    | none => []

/-- Source lines 119-120: `path = path.split('?')[0]; path = path.rstrip('/')`. -/
def stripPath (p : Bytes) : Bytes := rstripByte ((splitByte p 63).headD []) 47

/-- Source lines 121-128: the ordered URL candidate list `paths`. -/
def buildPaths (path : Bytes) : List Bytes :=
  let paths0 := [path]
  let e := splitext path
  let paths1 := if e.2 ≠ [] then paths0 ++ [e.1] else paths0
  let lastP := paths1.getLastD []
  if countByte lastP 47 > 1 then paths1 ++ [lastP.take ((rfindByte lastP 47).getD 0)]
  else paths1

/-- Source lines 130-138: the candidate loop; for each candidate the bare
path (`if path and path in trails[TRAIL.URL]`) is tried before the
`host + path` concatenation; the first hit wins. -/
def urlLoop (tsUrl : TrailMap) (host : Bytes) : List Bytes → Option (Bytes × (Bytes × Bytes))
  | [] => none
  | p :: rest =>
    match (if p = [] then none else alookup tsUrl p) with
    | some v => some (p, v)
    | none =>
      match alookup tsUrl (host ++ p) with
      | some v => some (host ++ p, v)
      | none => urlLoop tsUrl host rest

/-- Source lines 100-138: the HTTP request extractor, run on a TCP/PSH
payload to port 80. -/
def httpEvents (tsUrl : TrailMap) (sec usec : Nat) (srcIp : Bytes) (srcPort : Nat)
    (dstIp : Bytes) (dstPort : Nat) (data : Bytes) : List Event :=
  match subFind data (str "\r\n") with
  | none => []
  | some idx =>
    let line := data.take idx
    if countByte line 32 = 2 ∧ (subFind line (str " HTTP/")).isSome then
      let path0 := (splitByte line 32).getD 1 []
      match subFind data (str "\r\nHost:") with
      | none => []
      | some hi =>
        let hs := hi + 7
        let he := match subFindFrom data (str "\r\n") hs with
                  | some j => j
                  | none => data.length - 1
        let host := stripWs (pySlice data hs he)
        match urlLoop tsUrl host (buildPaths (stripPath path0)) with
        | some r => [⟨sec, usec, srcIp, some srcPort, dstIp, some dstPort, str "TCP",
                      TrailKind.URL, r.1, r.2.1, r.2.2⟩]
        | none => []
    else []

/-- Source lines 162-171: the DNS question-name decode loop
(label-length prefixes, dotted string, trailing dot stripped on the
null label); returns the query and the final `offset`.  The `fuel`
argument makes the recursion structural; every caller passes
`data.length`, which exceeds the iteration count (each iteration
advances `offset` by at least 2 and the loop requires
`offset < data.length`), so the fuel-exhausted case is unreachable —
see `decodeName_fuel`. -/
def decodeName : Nat → Bytes → Nat → Bytes → Bytes × Nat
  | 0, _, offset, query => (query, offset)
  | fuel + 1, data, offset, query =>
    if offset < data.length then
      let len := bt data offset
      if len = 0 then (query.dropLast, offset)
      else decodeName fuel data (offset + len + 1)
        (query ++ pySlice data (offset + 1) (offset + len + 1) ++ [46])
    else (query, offset)

/-- Source lines 178-188: the longest-to-shortest suffix loop over
`parts = query.split('.')`, with the `"(<prefix>)<suffix>"` formatting. -/
def suffixLoop (tsDns : TrailMap) (query : Bytes) : List Bytes → Option (Bytes × (Bytes × Bytes))
  | [] => none
  | p :: rest =>
    let domain := joinByte 46 (p :: rest)
    match alookup tsDns domain with
    | some v =>
      let trail := if domain = query then domain
                   else str "(" ++ pyDropRight query domain.length ++ str ")" ++ domain
      some (trail, v)
    | none => suffixLoop tsDns query rest

/-- Source lines 190-197: the NXDOMAIN per-hour counter update and the
"suspicious no such name" heuristic alert. -/
def nxUpdate (threshold : Nat) (cs : Counters) (sec usec : Nat) (srcIp : Bytes) (srcPort : Nat)
    (dstIp : Bytes) (dstPort : Nat) (query : Bytes) : Counters × List Event :=
  match alookup cs query with
  | none => (aupdate cs query (sec / 3600, 1), [])
  | some bc =>
    if bc.1 ≠ sec / 3600 then (aupdate cs query (sec / 3600, 1), [])
    else
      let c2 := bc.2 + 1
      (aupdate cs query (bc.1, c2),
        if c2 > threshold then
          [⟨sec, usec, srcIp, some srcPort, dstIp, some dstPort, str "UDP", TrailKind.DNS,
            query, str "suspicious no such name", str "(heuristic)"⟩]
        else [])

/-- Source lines 158-197: the DNS message section (payload starting at
`ETH + iph_length + 8`); the (cs, []) fallthroughs at inexact unpack
slices model the caught `struct.error`. -/
def dnsEvents (tsDns : TrailMap) (threshold : Nat) (cs : Counters) (sec usec : Nat)
    (srcIp : Bytes) (srcPort : Nat) (dstIp : Bytes) (dstPort : Nat) (data : Bytes) :
    Counters × List Event :=
  if data.length > 6 then
    let qdcount := be16 (bt data 4) (bt data 5)
    if qdcount > 0 then
      let qo := decodeName data.length data 12 []
      let query := qo.1
      let offset := qo.2
      if bt data 2 = 1 then
        if data.length ≥ offset + 5 then
          let qtype := be16 (bt data (offset + 1)) (bt data (offset + 2))
          let qclass := be16 (bt data (offset + 3)) (bt data (offset + 4))
          if qtype ≠ 12 ∧ qclass = 1 then
            match suffixLoop tsDns query (splitByte query 46) with
            | some r => (cs, [⟨sec, usec, srcIp, some srcPort, dstIp, some dstPort, str "UDP",
                              TrailKind.DNS, r.1, r.2.1, r.2.2⟩])
            | none => (cs, [])
          else (cs, [])
        else (cs, [])
      else if Nat.land (bt data 2) 128 ≠ 0 ∧ bt data 3 = 131 then
        nxUpdate threshold cs sec usec srcIp srcPort dstIp dstPort query
      else (cs, [])
    else (cs, [])
  else (cs, [])

/-- Source lines 85-138: the TCP branch (`pkt` is the frame truncated to
`ETH_LENGTH + total_length`). -/
def tcpEvents (ts : Trails) (sec usec : Nat) (srcIp dstIp : Bytes) (pkt : Bytes)
    (iphLength : Nat) : List Event :=
  let i := iphLength + ETH_LENGTH
  if pkt.length ≥ i + 14 then
    let srcPort := be16 (bt pkt i) (bt pkt (i + 1))
    let dstPort := be16 (bt pkt (i + 2)) (bt pkt (i + 3))
    let doffReserved := bt pkt (i + 12)
    let flags := bt pkt (i + 13)
    let synEvs :=
      if flags = 2 then
        ipAlertEvents ts.ip sec usec srcIp (some srcPort) dstIp (some dstPort) (str "TCP")
      else []
    let pshEvs :=
      if Nat.land flags 8 ≠ 0 then
        let hSize := ETH_LENGTH + iphLength + doffReserved / 16 * 4
        let data := pkt.drop hSize
        if dstPort = 80 ∧ data.length > 0 then
          httpEvents ts.url sec usec srcIp srcPort dstIp dstPort data
        else []
      else []
    synEvs ++ pshEvs
  else []

/-- Source lines 140-197: the UDP branch. -/
def udpEvents (ts : Trails) (threshold : Nat) (cs : Counters) (sec usec : Nat)
    (srcIp dstIp : Bytes) (pkt : Bytes) (iphLength : Nat) : Counters × List Event :=
  let i := iphLength + ETH_LENGTH
  if (pySlice pkt i (i + 4)).length < 4 then (cs, [])
  else
    let srcPort := be16 (bt pkt i) (bt pkt (i + 1))
    let dstPort := be16 (bt pkt (i + 2)) (bt pkt (i + 3))
    let ipEvs :=
      if srcPort ≠ 53 then
        ipAlertEvents ts.ip sec usec srcIp (some srcPort) dstIp (some dstPort) (str "UDP")
      else []
    if dstPort = 53 ∨ srcPort = 53 then
      let data := pkt.drop (ETH_LENGTH + iphLength + 8)
      let r := dnsEvents ts.dns threshold cs sec usec srcIp srcPort dstIp dstPort data
      (r.1, ipEvs ++ r.2)
    else (cs, ipEvs)

/-- Source lines 64-207: `_process_packet`.  `dlSll` is true for the
`DLT_LINUX_SLL` datalink (first 2 bytes skipped).  Returns the updated
`NO_SUCH_NAME_COUNTERS` and the `log_event` records, in emission order;
every point where the Python body would raise returns the events
emitted so far (the `except` clause at line 205 swallows the error). -/
def processPacket (ts : Trails) (threshold : Nat) (dlSll : Bool) (cs : Counters)
    (packet0 : Bytes) (sec usec : Nat) : Counters × List Event :=
  let packet := if dlSll then packet0.drop 2 else packet0
  if packet.length ≥ ETH_LENGTH then
    let ethProtocol := ntohs (be16 (bt packet 12) (bt packet 13))
    if ethProtocol = IPPROTO then
      if packet.length ≥ ETH_LENGTH + 20 then
        let ipLength := be16 (bt packet 16) (bt packet 17)
        let pkt := packet.take (ETH_LENGTH + ipLength)
        let iphLength := Nat.land (bt packet 14) 15 * 4
        let protocol := bt packet 23
        let srcIp := inet_ntoa (pySlice packet 26 30)
        let dstIp := inet_ntoa (pySlice packet 30 34)
        if protocol = 6 then
          (cs, tcpEvents ts sec usec srcIp dstIp pkt iphLength)
        else if protocol = 17 then
          udpEvents ts threshold cs sec usec srcIp dstIp pkt iphLength
        else
          match alookup IPPROTO_LUT protocol with
          | some name => (cs, ipAlertEvents ts.ip sec usec srcIp none dstIp none name)
          | none => (cs, [])
      else (cs, [])
    else (cs, [])
  else (cs, [])

/-- The capture loop's per-frame dispatch (source lines 297-312, inline
mode): process a list of `(frame, sec, usec)` captures in order,
threading `NO_SUCH_NAME_COUNTERS`. -/
def runPackets (ts : Trails) (threshold : Nat) (dlSll : Bool) :
    List (Bytes × Nat × Nat) → Counters → Counters × List Event
  | [], cs => (cs, [])
  | f :: rest, cs =>
    let r := processPacket ts threshold dlSll cs f.1 f.2.1 f.2.2
    let r2 := runPackets ts threshold dlSll rest r.1
    (r2.1, r.2 ++ r2.2)

/-! ## The trail-store update (`update_timer`, source lines 217-230) -/

/-- The shared `trails` dict of `core.settings` as `update_timer`
mutates it: a dict keyed by trail kind. -/
abbrev Store := List (TrailKind × TrailMap)

/-- Python dict assignment `d[k] = v` on the store. -/
def storeSet (s : Store) (k : TrailKind) (v : TrailMap) : Store := aupdate s k v

/-- The successive values a dict passes through while `d.update(new)`
sets the keys of `new` one at a time. -/
def mergeScan (s : Store) : Store → List Store
  | [] => []
  | kv :: rest =>
    let s2 := storeSet s kv.1 kv.2
    s2 :: mergeScan s2 rest

/-- `d.update(new)` as a single resulting value. -/
def mergeInto (s : Store) (new : Store) : Store :=
  new.foldl (fun acc kv => storeSet acc kv.1 kv.2) s

/-- Source lines 217-224: one tick of `update_timer`, as the ordered
sequence of values the shared `trails` dict passes through, starting
from the pre-tick value `cur`.  On a non-empty fetch the source runs
`trails.clear()` (one observable state: the empty dict) and then
`trails.update(_)` (one observable state per key set); on an empty
fetch with an empty store it runs `trails.update(load_trails())`.
`fetched` models the result of `update(server=config.SERVER_UPDATE)`
and `cached` the result of `load_trails()`, both collaborators outside
`src/`.  A concurrently running packet-processing reader sees whichever
of these states is current when it looks up the dict. -/
def updateTimerStates (fetched cached cur : Store) : List Store :=
  if fetched ≠ [] then cur :: [] :: mergeScan [] fetched
  else if cur = [] then cur :: mergeScan cur cached
  else [cur]

/-! ## Spec-side reference definitions -/

/-- Follows the spec's words (§4.3): "For each candidate *in order*:
first check `TS.URL[path]`, then `TS.URL[host + path]`" — the ordered
sequence of `TS.URL` keys the candidate loop tries (the bare candidate
is only tried when non-empty, per the `path and` truthiness guard of
source line 131). -/
def specCheckSeq (host : Bytes) : List Bytes → List Bytes
  | [] => []
  | p :: rest => (if p = [] then [] else [p]) ++ (host ++ p) :: specCheckSeq host rest

/-- Follows the spec's words: "emit the first match ... and stop" —
the first key of the sequence that is in the table, with its value. -/
def firstHit (ts : TrailMap) : List Bytes → Option (Bytes × (Bytes × Bytes))
  | [] => none
  | k :: rest =>
    match alookup ts k with
    | some v => some (k, v)
    | none => firstHit ts rest

/-- Follows the spec's words (§4.3): "Strip any `?query` from the URI". -/
def specQueryStrip (p : Bytes) : Bytes := p.takeWhile (fun b => b != 63)

/-! ## Concrete frames and trail stores for the scenario theorems -/

/-- An Ethernet II header with IPv4 ethertype (MAC addresses are not read). -/
def ethHeader : Bytes := List.replicate 12 0 ++ [8, 0]

/-- A 20-byte IPv4 header: IHL 5, given total length, protocol, addresses. -/
def ipv4Header (totLen proto : Nat) (sip dip : Bytes) : Bytes :=
  [69, 0, totLen / 256, totLen % 256, 0, 0, 0, 0, 64, proto, 0, 0] ++ sip ++ dip

def emptyTrails : Trails := ⟨[], [], []⟩

/-- TCP frame 10.0.0.1:55555 → 1.2.3.4:80, flags SYN only. -/
def synPkt : Bytes :=
  ethHeader ++ ipv4Header 40 6 [10, 0, 0, 1] [1, 2, 3, 4] ++
  [217, 3, 0, 80, 0, 0, 0, 0, 0, 0, 0, 0, 80, 2, 0, 0, 0, 0, 0, 0]

def tsSyn : Trails := ⟨[(str "1.2.3.4", (str "badhost", str "feedA"))], [], []⟩

def httpPayload : Bytes := str "GET /evil.php?x=1 HTTP/1.1\r\nHost: example.com\r\n\r\n"

/-- TCP frame 10.0.0.1:55555 → 5.6.7.8:80, flags PSH+ACK, carrying `httpPayload`. -/
def httpPkt : Bytes :=
  ethHeader ++ ipv4Header (40 + httpPayload.length) 6 [10, 0, 0, 1] [5, 6, 7, 8] ++
  [217, 3, 0, 80, 0, 0, 0, 0, 0, 0, 0, 0, 80, 24, 0, 0, 0, 0, 0, 0] ++ httpPayload

def tsUrlEvil : Trails := ⟨[], [], [(str "/evil.php", (str "pX", str "sX"))]⟩

def rootPayload : Bytes := str "GET / HTTP/1.1\r\nHost: example.com\r\n\r\n"

/-- Like `httpPkt` but requesting the bare root path `/`. -/
def rootPkt : Bytes :=
  ethHeader ++ ipv4Header (40 + rootPayload.length) 6 [10, 0, 0, 1] [5, 6, 7, 8] ++
  [217, 3, 0, 80, 0, 0, 0, 0, 0, 0, 0, 0, 80, 24, 0, 0, 0, 0, 0, 0] ++ rootPayload

def tsUrlHost : Trails := ⟨[], [], [(str "example.com", (str "pZ", str "sZ"))]⟩

/-- DNS standard query (flags 0x0100, QDCOUNT 1) for `sub.bad.example`, type A class IN. -/
def dnsQueryPayload : Bytes :=
  [0, 1, 1, 0, 0, 1, 0, 0, 0, 0, 0, 0] ++
  [3] ++ str "sub" ++ [3] ++ str "bad" ++ [7] ++ str "example" ++ [0] ++ [0, 1, 0, 1]

/-- UDP frame 10.0.0.1:5353 → 3.3.3.3:53 carrying `dnsQueryPayload`. -/
def dnsQueryPkt : Bytes :=
  ethHeader ++ ipv4Header (28 + dnsQueryPayload.length) 17 [10, 0, 0, 1] [3, 3, 3, 3] ++
  [20, 233, 0, 53, 0, 41, 0, 0] ++ dnsQueryPayload

def tsDnsBad : Trails := ⟨[], [(str "bad.example", (str "pY", str "sY"))], []⟩

def tsBoth : Trails :=
  ⟨[(str "3.3.3.3", (str "bip", str "sip"))], [(str "bad.example", (str "pY", str "sY"))], []⟩

/-- DNS response with flags bytes 0x81, 0x83 (standard response,
recursion available, NXDOMAIN) for `weird.tld`. -/
def nxPayload : Bytes :=
  [0, 1, 129, 131, 0, 1, 0, 0, 0, 0, 0, 0] ++
  [5] ++ str "weird" ++ [3] ++ str "tld" ++ [0] ++ [0, 1, 0, 1]

/-- UDP frame 10.0.0.2:53 → 10.0.0.1:33333 carrying `nxPayload`. -/
def nxPkt : Bytes :=
  ethHeader ++ ipv4Header (28 + nxPayload.length) 17 [10, 0, 0, 2] [10, 0, 0, 1] ++
  [0, 53, 130, 53, 0, 34, 0, 0] ++ nxPayload

/-- Like `dnsQueryPayload` but with QDCOUNT = 0. -/
def qd0Payload : Bytes :=
  [0, 1, 1, 0, 0, 0, 0, 0, 0, 0, 0, 0] ++
  [3] ++ str "sub" ++ [3] ++ str "bad" ++ [7] ++ str "example" ++ [0] ++ [0, 1, 0, 1]

/-- UDP frame 10.0.0.1:5353 → 3.3.3.3:53 carrying `qd0Payload`. -/
def qd0Pkt : Bytes :=
  ethHeader ++ ipv4Header (28 + qd0Payload.length) 17 [10, 0, 0, 1] [3, 3, 3, 3] ++
  [20, 233, 0, 53, 0, 41, 0, 0] ++ qd0Payload

/-- Concrete stores for the `update_timer` trace. -/
def storeOld : Store := [(TrailKind.IP, [(str "9.9.9.9", (str "j", str "t"))])]

def storeNew : Store := [(TrailKind.IP, [(str "1.2.3.4", (str "i", str "s"))])]

/-! ## Helper lemmas -/

/-- The fuel argument of `decodeName` is irrelevant once it covers the
remaining byte count, so passing `data.length` (≥ `data.length - offset`)
computes the Python loop exactly. -/
theorem decodeName_fuel : ∀ (f g : Nat) (data : Bytes) (offset : Nat) (query : Bytes),
    data.length - offset ≤ f → data.length - offset ≤ g →
    decodeName f data offset query = decodeName g data offset query := by
  intro f
  induction f with
  | zero =>
    intro g data offset query hf hg
    have hlt : ¬ offset < data.length := by omega
    cases g with
    | zero => rfl
    | succ g => simp [decodeName, hlt]
  | succ f ih =>
    intro g data offset query hf hg
    cases g with
    | zero =>
      have hlt : ¬ offset < data.length := by omega
      simp [decodeName, hlt]
    | succ g =>
      by_cases hlt : offset < data.length
      · simp only [decodeName, if_pos hlt]
        by_cases hz : bt data offset = 0
        · simp [hz]
        · simp only [if_neg hz]
          exact ih g data (offset + bt data offset + 1) _ (by omega) (by omega)
      · simp [decodeName, hlt]

theorem runPackets_append (ts : Trails) (threshold : Nat) (dl : Bool) :
    ∀ (l1 l2 : List (Bytes × Nat × Nat)) (cs : Counters),
      runPackets ts threshold dl (l1 ++ l2) cs =
        ((runPackets ts threshold dl l2 (runPackets ts threshold dl l1 cs).1).1,
         (runPackets ts threshold dl l1 cs).2 ++
           (runPackets ts threshold dl l2 (runPackets ts threshold dl l1 cs).1).2) := by
  intro l1
  induction l1 with
  | nil => intro l2 cs; simp [runPackets]
  | cons f rest ih => intro l2 cs; simp [runPackets, ih]

theorem processPacket_short {ts : Trails} {threshold : Nat} {cs : Counters}
    {pkt : Bytes} {sec usec : Nat} (h : pkt.length < ETH_LENGTH) :
    processPacket ts threshold false cs pkt sec usec = (cs, []) := by
  have h2 : ¬ pkt.length ≥ ETH_LENGTH := by omega
  simp [processPacket, h2]

theorem ipAlertEvents_mem {tsIp : TrailMap} {sec usec : Nat} {sip : Bytes} {sp : Option Nat}
    {dip : Bytes} {dp : Option Nat} {tr : Bytes} :
    ∀ e ∈ ipAlertEvents tsIp sec usec sip sp dip dp tr,
      e.kind = TrailKind.IP ∧ (e.value = dip ∨ e.value = sip) := by
  intro e he
  unfold ipAlertEvents at he
  cases h1 : alookup tsIp dip with
  | some v => rw [h1] at he; simp at he; subst he; exact ⟨rfl, Or.inl rfl⟩
  | none =>
    rw [h1] at he
    cases h2 : alookup tsIp sip with
    | some v => rw [h2] at he; simp at he; subst he; exact ⟨rfl, Or.inr rfl⟩
    | none => rw [h2] at he; simp at he

theorem ipAlertEvents_len {tsIp : TrailMap} {sec usec : Nat} {sip : Bytes} {sp : Option Nat}
    {dip : Bytes} {dp : Option Nat} {tr : Bytes} :
    (ipAlertEvents tsIp sec usec sip sp dip dp tr).length ≤ 1 := by
  unfold ipAlertEvents
  cases alookup tsIp dip <;> [skip; simp]
  cases alookup tsIp sip <;> simp

theorem ipAlertEvents_dst {tsIp : TrailMap} {sec usec : Nat} {sip : Bytes} {sp : Option Nat}
    {dip : Bytes} {dp : Option Nat} {tr : Bytes} {v : Bytes × Bytes}
    (h : alookup tsIp dip = some v) :
    ipAlertEvents tsIp sec usec sip sp dip dp tr =
      [⟨sec, usec, sip, sp, dip, dp, tr, TrailKind.IP, dip, v.1, v.2⟩] := by
  unfold ipAlertEvents
  rw [h]

theorem nxUpdate_kind {threshold : Nat} {cs : Counters} {sec usec : Nat} {sip : Bytes}
    {sp : Nat} {dip : Bytes} {dp : Nat} {q : Bytes} :
    ∀ e ∈ (nxUpdate threshold cs sec usec sip sp dip dp q).2, e.kind = TrailKind.DNS := by
  intro e he
  simp only [nxUpdate] at he
  repeat' split at he
  all_goals simp_all

theorem dnsEvents_kind {tsDns : TrailMap} {threshold : Nat} {cs : Counters} {sec usec : Nat}
    {sip : Bytes} {sp : Nat} {dip : Bytes} {dp : Nat} {data : Bytes} :
    ∀ e ∈ (dnsEvents tsDns threshold cs sec usec sip sp dip dp data).2,
      e.kind = TrailKind.DNS := by
  intro e he
  simp only [dnsEvents] at he
  repeat' split at he
  all_goals first
    | exact nxUpdate_kind e he
    | simp_all

theorem httpEvents_kind {tsUrl : TrailMap} {sec usec : Nat} {sip : Bytes} {sp : Nat}
    {dip : Bytes} {dp : Nat} {data : Bytes} :
    ∀ e ∈ httpEvents tsUrl sec usec sip sp dip dp data, e.kind = TrailKind.URL := by
  intro e he
  simp only [httpEvents] at he
  repeat' split at he
  all_goals simp_all

theorem tcpEvents_ip {ts : Trails} {sec usec : Nat} {sip dip : Bytes} {pkt : Bytes}
    {iph : Nat} :
    ∀ e ∈ tcpEvents ts sec usec sip dip pkt iph, e.kind = TrailKind.IP →
      e.value = dip ∨ e.value = sip := by
  intro e he hk
  simp only [tcpEvents] at he
  repeat' split at he
  all_goals first
    | exact absurd he (List.not_mem_nil e)
    | (rcases List.mem_append.1 he with h | h <;>
        first
          | exact absurd h (List.not_mem_nil e)
          | exact (ipAlertEvents_mem e h).2
          | (rw [httpEvents_kind e h] at hk; exact absurd hk (by decide)))

theorem udpEvents_ip {ts : Trails} {threshold : Nat} {cs : Counters} {sec usec : Nat}
    {sip dip : Bytes} {pkt : Bytes} {iph : Nat} :
    ∀ e ∈ (udpEvents ts threshold cs sec usec sip dip pkt iph).2, e.kind = TrailKind.IP →
      e.value = dip ∨ e.value = sip := by
  intro e he hk
  simp only [udpEvents] at he
  repeat' split at he
  all_goals first
    | exact absurd he (List.not_mem_nil e)
    | exact (ipAlertEvents_mem e he).2
    | (rcases List.mem_append.1 he with h | h <;>
        first
          | exact absurd h (List.not_mem_nil e)
          | exact (ipAlertEvents_mem e h).2
          | (rw [dnsEvents_kind e h] at hk; exact absurd hk (by decide)))

theorem processPacket_ip {ts : Trails} {threshold : Nat} {dl : Bool} {cs : Counters}
    {pkt : Bytes} {sec usec : Nat} :
    ∀ e ∈ (processPacket ts threshold dl cs pkt sec usec).2, e.kind = TrailKind.IP →
      e.value = inet_ntoa (pySlice (if dl then pkt.drop 2 else pkt) 30 34) ∨
      e.value = inet_ntoa (pySlice (if dl then pkt.drop 2 else pkt) 26 30) := by
  intro e he hk
  cases dl with
  | false =>
    simp only [processPacket, Bool.false_eq_true, if_false] at he
    simp only [Bool.false_eq_true, if_false]
    repeat' split at he
    all_goals first
      | exact absurd he (List.not_mem_nil e)
      | exact tcpEvents_ip e he hk
      | exact udpEvents_ip e he hk
      | exact (ipAlertEvents_mem e he).2
  | true =>
    simp only [processPacket, eq_self_iff_true, if_true] at he
    simp only [eq_self_iff_true, if_true]
    repeat' split at he
    all_goals first
      | exact absurd he (List.not_mem_nil e)
      | exact tcpEvents_ip e he hk
      | exact udpEvents_ip e he hk
      | exact (ipAlertEvents_mem e he).2

theorem urlLoop_eq_firstHit (tsUrl : TrailMap) (host : Bytes) :
    ∀ ps, urlLoop tsUrl host ps = firstHit tsUrl (specCheckSeq host ps) := by
  intro ps
  induction ps with
  | nil => rfl
  | cons p rest ih =>
    by_cases hp : p = []
    · subst hp
      simp only [urlLoop, specCheckSeq, if_pos rfl, List.nil_append, List.append_nil]
      cases h : alookup tsUrl host <;> simp [firstHit, h, ih]
    · simp only [urlLoop, specCheckSeq, if_neg hp, List.cons_append, List.nil_append]
      cases h1 : alookup tsUrl p with
      | some v => simp [firstHit, h1]
      | none =>
        cases h2 : alookup tsUrl (host ++ p) <;> simp [firstHit, h1, h2, ih]

theorem suffixLoop_eq_some {tsDns : TrailMap} {q : Bytes} :
    ∀ (parts : List Bytes) (r : Bytes × (Bytes × Bytes)),
      suffixLoop tsDns q parts = some r →
      ∃ i, i < parts.length ∧
        (∀ j, j < i → alookup tsDns (joinByte 46 (parts.drop j)) = none) ∧
        alookup tsDns (joinByte 46 (parts.drop i)) = some r.2 ∧
        r.1 = (if joinByte 46 (parts.drop i) = q then q
               else str "(" ++ pyDropRight q (joinByte 46 (parts.drop i)).length ++ str ")" ++
                 joinByte 46 (parts.drop i)) := by
  intro parts
  induction parts with
  | nil => intro r h; simp [suffixLoop] at h
  | cons p rest ih =>
    intro r h
    simp only [suffixLoop] at h
    cases hl : alookup tsDns (joinByte 46 (p :: rest)) with
    | some v =>
      simp only [hl] at h
      have h2 := Option.some.inj h
      subst h2
      refine ⟨0, by simp, by intro j hj; omega, by simpa using hl, ?_⟩
      rw [List.drop_zero]
      by_cases hq : joinByte 46 (p :: rest) = q <;> simp [hq]
    | none =>
      simp only [hl] at h
      obtain ⟨i, hi, hmiss, hhit, hfmt⟩ := ih r h
      refine ⟨i + 1, by simpa using hi, ?_, ?_, ?_⟩
      · intro j hj
        cases j with
        | zero => simpa using hl
        | succ j => simpa using hmiss j (by omega)
      · simpa using hhit
      · simpa using hfmt

theorem suffixLoop_eq_none {tsDns : TrailMap} {q : Bytes} :
    ∀ (parts : List Bytes), suffixLoop tsDns q parts = none →
      ∀ i, i < parts.length → alookup tsDns (joinByte 46 (parts.drop i)) = none := by
  intro parts
  induction parts with
  | nil => intro h i hi; simp at hi
  | cons p rest ih =>
    intro h i hi
    simp only [suffixLoop] at h
    cases hl : alookup tsDns (joinByte 46 (p :: rest)) with
    | some v => simp [hl] at h
    | none =>
      simp only [hl] at h
      cases i with
      | zero => simpa using hl
      | succ i => simpa using ih h i (by simpa using hi)

theorem splitByte_ne_nil : ∀ (l : Bytes) (c : Nat), splitByte l c ≠ [] := by
  intro l c
  induction l with
  | nil => simp [splitByte]
  | cons a rest ih =>
    simp only [splitByte]
    by_cases h : a = c
    · simp [h]
    · rw [if_neg h]
      cases hs : splitByte rest c with
      | nil => exact absurd hs ih
      | cons x t => simp

theorem splitByte_headD : ∀ (l : Bytes) (c : Nat),
    (splitByte l c).headD [] = l.takeWhile (fun b => b != c) := by
  intro l c
  induction l with
  | nil => rfl
  | cons a rest ih =>
    simp only [splitByte, List.takeWhile_cons]
    by_cases h : a = c
    · simp [h]
    · rw [if_neg h]
      cases hs : splitByte rest c with
      | nil => exact absurd hs (splitByte_ne_nil rest c)
      | cons x t =>
        rw [hs] at ih
        simp only [List.headD_cons] at ih
        have hb : (a != c) = true := by simpa using h
        simp [hb, ih]

theorem head_dropWhile_not {p : Nat → Bool} :
    ∀ (l : Bytes) (a : Nat), (l.dropWhile p).head? = some a → p a = false := by
  intro l
  induction l with
  | nil => intro a h; simp [List.dropWhile] at h
  | cons x rest ih =>
    intro a h
    rw [List.dropWhile_cons] at h
    by_cases hx : p x
    · rw [if_pos hx] at h
      exact ih a h
    · rw [if_neg hx] at h
      simp at h
      subst h
      simpa using hx

theorem rstripByte_decomp (l : Bytes) (c : Nat) :
    l = rstripByte l c ++ List.replicate (l.reverse.takeWhile (fun b => b == c)).length c := by
  have hall : ∀ b ∈ l.reverse.takeWhile (fun b => b == c), b = c := by
    intro b hb
    have h2 := List.mem_takeWhile_imp hb
    simpa using h2
  have hrep := List.eq_replicate_of_mem hall
  calc l = l.reverse.reverse := (List.reverse_reverse l).symm
    _ = (l.reverse.takeWhile (fun b => b == c) ++ l.reverse.dropWhile (fun b => b == c)).reverse := by
        rw [List.takeWhile_append_dropWhile]
    _ = (l.reverse.dropWhile (fun b => b == c)).reverse ++
          (l.reverse.takeWhile (fun b => b == c)).reverse := by
        rw [List.reverse_append]
    _ = rstripByte l c ++ List.replicate (l.reverse.takeWhile (fun b => b == c)).length c := by
        rw [rstripByte]
        congr 1
        conv_lhs => rw [hrep]
        rw [List.reverse_replicate]

theorem rstripByte_getLast (l : Bytes) (c : Nat) : (rstripByte l c).getLast? ≠ some c := by
  unfold rstripByte
  rw [List.getLast?_reverse]
  intro h
  have h2 := head_dropWhile_not l.reverse c h
  simp at h2

theorem mergeScan_getLastD : ∀ (l : Store) (s d : Store), l ≠ [] →
    (mergeScan s l).getLastD d = mergeInto s l := by
  intro l
  induction l with
  | nil => intro s d h; cases h rfl
  | cons kv rest ih =>
    intro s d h
    simp only [mergeScan, mergeInto, List.foldl_cons]
    by_cases hr : rest = []
    · subst hr; simp [mergeScan, mergeInto]
    · rw [List.getLastD_cons]
      exact ih (storeSet s kv.1 kv.2) (storeSet s kv.1 kv.2) hr

/-! ## Claim theorems -/

/-- C1 counterexample: the claimed invariant — during an update every
store value a reader can observe is either the previous snapshot or the
newly installed one — fails on the code at a concrete input: for a
non-empty fetched table, `update_timer` does `trails.clear()` before
`trails.update(_)`, so the empty dict is an observable intermediate
state distinct from both. -/
theorem updateTimer_not_atomic_counterexample :
    ¬ (∀ s ∈ updateTimerStates storeNew [] storeOld,
        s = storeOld ∨ s = (updateTimerStates storeNew [] storeOld).getLastD storeOld) := by
  intro h
  rcases h [] (by decide) with h2 | h2
  · exact absurd h2 (by decide)
  · exact absurd h2 (by decide)

/-- C1 (amended): when the periodic fetch yields a non-empty table,
`update_timer` rebuilds the shared `trails` dict from the fetched table
alone — the last observable state equals `mergeInto [] fetched` — but it
does so by mutating the published dict in place: the trace starts at the
previous state and contains the empty dict as an intermediate state, so a
concurrent packet-processing reader can observe an empty (or partially
populated) trail table during the update; the swap is not atomic. -/
theorem updateTimer_in_place_rebuild (fetched cached cur : Store) (h : fetched ≠ []) :
    (updateTimerStates fetched cached cur).getLastD cur = mergeInto [] fetched ∧
    (updateTimerStates fetched cached cur).head? = some cur ∧
    [] ∈ updateTimerStates fetched cached cur := by
  unfold updateTimerStates
  rw [if_pos h]
  refine ⟨?_, rfl, by simp⟩
  rw [List.getLastD_cons, List.getLastD_cons]
  exact mergeScan_getLastD fetched [] [] h

/-- C1 witness: the amended statement at the concrete stores. -/
theorem updateTimer_in_place_rebuild_witness :
    (updateTimerStates storeNew [] storeOld).getLastD storeOld = mergeInto [] storeNew ∧
    (updateTimerStates storeNew [] storeOld).head? = some storeOld ∧
    [] ∈ updateTimerStates storeNew [] storeOld :=
  updateTimer_in_place_rebuild storeNew [] storeOld (by decide)

/-- C2: every `TRAIL.IP` alert `_process_packet` emits (the TCP SYN-only,
UDP non-DNS and other-IP-protocol paths are the only sources of such
events) carries as trail value the frame's `dst_ip` or its `src_ip`; the
shared lookup used by each of the three paths emits at most one event per
frame per path; and `dst_ip` is preferred whenever it is a key of
`trails[TRAIL.IP]`. -/
theorem ip_trail_value_src_or_dst (ts : Trails) (threshold : Nat) (dl : Bool)
    (cs : Counters) (pkt : Bytes) (sec usec : Nat) (tsIp : TrailMap) (s u : Nat)
    (sip : Bytes) (sp : Option Nat) (dip : Bytes) (dp : Option Nat) (tr : Bytes) :
    (∀ e ∈ (processPacket ts threshold dl cs pkt sec usec).2, e.kind = TrailKind.IP →
      e.value = inet_ntoa (pySlice (if dl then pkt.drop 2 else pkt) 30 34) ∨
      e.value = inet_ntoa (pySlice (if dl then pkt.drop 2 else pkt) 26 30)) ∧
    (ipAlertEvents tsIp s u sip sp dip dp tr).length ≤ 1 ∧
    (∀ v, alookup tsIp dip = some v →
      ipAlertEvents tsIp s u sip sp dip dp tr =
        [⟨s, u, sip, sp, dip, dp, tr, TrailKind.IP, dip, v.1, v.2⟩]) :=
  ⟨processPacket_ip, ipAlertEvents_len, fun _ hv => ipAlertEvents_dst hv⟩

/-- C2 witness: on the concrete SYN frame to a listed `dst_ip`, the
emitted IP-trail event's value is the frame's `dst_ip` or `src_ip`. -/
theorem ip_trail_value_src_or_dst_witness :
    ∃ e ∈ (processPacket tsSyn 10 false [] synPkt 1000 0).2,
      e.value = inet_ntoa (pySlice (if false then synPkt.drop 2 else synPkt) 30 34) ∨
      e.value = inet_ntoa (pySlice (if false then synPkt.drop 2 else synPkt) 26 30) := by
  refine ⟨⟨1000, 0, str "10.0.0.1", some 55555, str "1.2.3.4", some 80, str "TCP",
    TrailKind.IP, str "1.2.3.4", str "badhost", str "feedA"⟩, by decide, ?_⟩
  exact (ip_trail_value_src_or_dst tsSyn 10 false [] synPkt 1000 0 [] 0 0 [] none [] none
    []).1 _ (by decide) (by decide)

/-- C3: the NXDOMAIN counter update — on a missing entry or an entry from
a different hour bucket the entry is reset to `(sec / 3600, 1)` with no
alert; otherwise the count is incremented and the heuristic alert (trail
`DNS`, indicator "suspicious no such name", source "(heuristic)") is
emitted exactly when the new count strictly exceeds the threshold — and,
with threshold 10, feeding the concrete NXDOMAIN response frame: 10
same-hour responses alert never, the 11th alerts once, one more response
in the next hour does not alert, and a 12th same-hour response alerts
again. -/
theorem nx_heuristic_threshold :
    (∀ (threshold : Nat) (cs : Counters) (sec usec : Nat) (sip : Bytes) (sp : Nat)
        (dip : Bytes) (dp : Nat) (q : Bytes),
      (alookup cs q = none ∨ ∃ b c, alookup cs q = some (b, c) ∧ b ≠ sec / 3600) →
      nxUpdate threshold cs sec usec sip sp dip dp q = (aupdate cs q (sec / 3600, 1), [])) ∧
    (∀ (threshold : Nat) (cs : Counters) (sec usec : Nat) (sip : Bytes) (sp : Nat)
        (dip : Bytes) (dp : Nat) (q : Bytes) (b c : Nat),
      alookup cs q = some (b, c) → b = sec / 3600 →
      nxUpdate threshold cs sec usec sip sp dip dp q =
        (aupdate cs q (b, c + 1),
          if c + 1 > threshold then
            [⟨sec, usec, sip, some sp, dip, some dp, str "UDP", TrailKind.DNS, q,
              str "suspicious no such name", str "(heuristic)"⟩]
          else [])) ∧
    (runPackets emptyTrails 10 false (List.replicate 10 (nxPkt, 5000, 0)) []).2 = [] ∧
    (runPackets emptyTrails 10 false (List.replicate 11 (nxPkt, 5000, 0)) []).2 =
      [⟨5000, 0, str "10.0.0.2", some 53, str "10.0.0.1", some 33333, str "UDP", TrailKind.DNS,
        str "weird.tld", str "suspicious no such name", str "(heuristic)"⟩] ∧
    (runPackets emptyTrails 10 false
        (List.replicate 11 (nxPkt, 5000, 0) ++ [(nxPkt, 9000, 0)]) []).2.length = 1 ∧
    (runPackets emptyTrails 10 false (List.replicate 12 (nxPkt, 5000, 0)) []).2.length = 2 := by
  refine ⟨?_, ?_, by decide, by decide, by decide, by decide⟩
  · intro threshold cs sec usec sip sp dip dp q h
    rcases h with h | ⟨b, c, h, hb⟩
    · unfold nxUpdate; rw [h]
    · unfold nxUpdate; rw [h]; simp [hb]
  · intro threshold cs sec usec sip sp dip dp q b c h hb
    subst hb
    unfold nxUpdate
    rw [h]
    simp

/-- C3 witness: the increment-and-alert case at a concrete counter state
sitting exactly at the threshold. -/
theorem nx_heuristic_threshold_witness :
    nxUpdate 10 [(str "weird.tld", (1, 10))] 5000 0 (str "10.0.0.2") 53 (str "10.0.0.1")
        33333 (str "weird.tld") =
      (aupdate [(str "weird.tld", (1, 10))] (str "weird.tld") (1, 11),
        [⟨5000, 0, str "10.0.0.2", some 53, str "10.0.0.1", some 33333, str "UDP",
          TrailKind.DNS, str "weird.tld", str "suspicious no such name",
          str "(heuristic)"⟩]) := by
  rw [nx_heuristic_threshold.2.1 10 [(str "weird.tld", (1, 10))] 5000 0 (str "10.0.0.2") 53
    (str "10.0.0.1") 33333 (str "weird.tld") 1 10 (by decide) (by decide)]
  decide

/-- C4: for a standard DNS query, the decoder walks the suffixes of the
question name from longest to shortest (`parts[i:]` joined with dots),
stops at the first suffix that is a `TS.DNS` key, and the emitted trail
value is the query itself on a full-name match and otherwise
`"(<prefix>)<suffix>"` with the prefix keeping its trailing dot; on the
concrete frame querying `sub.bad.example` against key `bad.example`,
exactly one DNS alert with value `(sub.)bad.example` is emitted. -/
theorem dns_suffix_first_match :
    (∀ (tsDns : TrailMap) (q : Bytes) (r : Bytes × (Bytes × Bytes)),
      suffixLoop tsDns q (splitByte q 46) = some r →
      ∃ i, i < (splitByte q 46).length ∧
        (∀ j, j < i → alookup tsDns (joinByte 46 ((splitByte q 46).drop j)) = none) ∧
        alookup tsDns (joinByte 46 ((splitByte q 46).drop i)) = some r.2 ∧
        r.1 = (if joinByte 46 ((splitByte q 46).drop i) = q then q
               else str "(" ++ pyDropRight q (joinByte 46 ((splitByte q 46).drop i)).length ++
                 str ")" ++ joinByte 46 ((splitByte q 46).drop i))) ∧
    (∀ (tsDns : TrailMap) (q : Bytes),
      suffixLoop tsDns q (splitByte q 46) = none →
      ∀ i, i < (splitByte q 46).length →
        alookup tsDns (joinByte 46 ((splitByte q 46).drop i)) = none) ∧
    (processPacket tsDnsBad 10 false [] dnsQueryPkt 1000 0).2 =
      [⟨1000, 0, str "10.0.0.1", some 5353, str "3.3.3.3", some 53, str "UDP", TrailKind.DNS,
        str "(sub.)bad.example", str "pY", str "sY"⟩] :=
  ⟨fun _ q => suffixLoop_eq_some (splitByte q 46),
   fun _ q => suffixLoop_eq_none (splitByte q 46), by decide⟩

/-- C4 witness: the first-match characterization applied to the concrete
query `sub.bad.example` and table containing `bad.example`. -/
theorem dns_suffix_first_match_witness :
    ∃ i, i < (splitByte (str "sub.bad.example") 46).length ∧
      alookup tsDnsBad.dns (joinByte 46 ((splitByte (str "sub.bad.example") 46).drop i)) =
        some (str "pY", str "sY") := by
  obtain ⟨i, hi, -, hhit, -⟩ := dns_suffix_first_match.1 tsDnsBad.dns
    (str "sub.bad.example") (str "(sub.)bad.example", (str "pY", str "sY")) (by decide)
  exact ⟨i, hi, hhit⟩

/-- C5: the URL candidate loop tries, in candidate order, the bare path
before the `host + path` concatenation, emitting the first key found
(`urlLoop` coincides with the first hit of the ordered key sequence);
the HTTP extractor emits at most one URL alert; and the concrete request
`GET /evil.php?x=1` with `Host: example.com` against
`TS.URL = {"/evil.php"}` emits exactly one URL alert valued
`/evil.php`. -/
theorem url_candidate_order :
    (∀ (tsUrl : TrailMap) (host : Bytes) (ps : List Bytes),
      urlLoop tsUrl host ps = firstHit tsUrl (specCheckSeq host ps)) ∧
    (∀ (tsUrl : TrailMap) (sec usec : Nat) (sip : Bytes) (sp : Nat) (dip : Bytes)
        (dp : Nat) (data : Bytes),
      (httpEvents tsUrl sec usec sip sp dip dp data).length ≤ 1) ∧
    (processPacket tsUrlEvil 10 false [] httpPkt 1000 0).2 =
      [⟨1000, 0, str "10.0.0.1", some 55555, str "5.6.7.8", some 80, str "TCP", TrailKind.URL,
        str "/evil.php", str "pX", str "sX"⟩] := by
  refine ⟨fun tsUrl host ps => urlLoop_eq_firstHit tsUrl host ps, ?_, by decide⟩
  intro tsUrl sec usec sip sp dip dp data
  unfold httpEvents
  repeat' split
  all_goals try simp
  all_goals try split
  all_goals try simp
  all_goals try split
  all_goals simp

/-- C6: the DNS section emits an alert or touches the NXDOMAIN counters
only if the payload at `ETH + iph_length + 8` has at least 6 bytes and
the big-endian QDCOUNT at payload bytes 4-5 is positive; the concrete
UDP DNS query frame with QDCOUNT = 0 produces no alert and leaves the
counters unchanged. -/
theorem dns_parse_gate :
    (∀ (tsDns : TrailMap) (threshold : Nat) (cs : Counters) (sec usec : Nat) (sip : Bytes)
        (sp : Nat) (dip : Bytes) (dp : Nat) (data : Bytes),
      dnsEvents tsDns threshold cs sec usec sip sp dip dp data ≠ (cs, []) →
      data.length ≥ 6 ∧ be16 (bt data 4) (bt data 5) > 0) ∧
    processPacket tsDnsBad 10 false [] qd0Pkt 1000 0 = ([], []) := by
  refine ⟨?_, by decide⟩
  intro tsDns threshold cs sec usec sip sp dip dp data h
  by_cases h6 : data.length > 6
  · refine ⟨by omega, ?_⟩
    by_cases hq : be16 (bt data 4) (bt data 5) > 0
    · exact hq
    · exfalso; apply h
      simp only [dnsEvents, if_pos h6, if_neg hq]
  · exfalso; apply h
    simp only [dnsEvents, if_neg h6]

/-- C6 witness: the gate's necessity applied to the concrete NXDOMAIN
payload (which does update the counters). -/
theorem dns_parse_gate_witness :
    nxPayload.length ≥ 6 ∧ be16 (bt nxPayload 4) (bt nxPayload 5) > 0 :=
  dns_parse_gate.1 [] 10 [] 5000 0 (str "10.0.0.2") 53 (str "10.0.0.1") 33333 nxPayload
    (by decide)

/-- C7 counterexample: for the URI `/x//` the query-stripped path is
`/x//`, so removing at most one final `/` allows only `/x//` or `/x/`;
the code's `rstrip('/')` produces `/x`, removing both slashes. -/
theorem stripPath_counterexample :
    stripPath (str "/x//") = str "/x" ∧
    stripPath (str "/x//") ≠ specQueryStrip (str "/x//") ∧
    stripPath (str "/x//") ≠ str "/x/" := by decide

/-- C7 (amended): building the first HTTP URL candidate strips any
`?query` part and then removes ALL trailing `/` characters (not exactly
one): for every URI the result is the query-stripped path minus its
entire run of trailing slashes, and it never ends in `/`. -/
theorem stripPath_strips_all_trailing_slashes (p : Bytes) :
    (∃ k, specQueryStrip p = stripPath p ++ List.replicate k 47) ∧
    (stripPath p).getLast? ≠ some 47 := by
  constructor
  · unfold stripPath specQueryStrip
    rw [← splitByte_headD]
    exact ⟨_, rstripByte_decomp ((splitByte p 63).headD []) 47⟩
  · exact rstripByte_getLast _ 47

/-- C7 witness: the amended statement at a concrete URI with a query
part and two trailing slashes. -/
theorem stripPath_strips_all_trailing_slashes_witness :
    (∃ k, specQueryStrip (str "/a//?q") = stripPath (str "/a//?q") ++ List.replicate k 47) ∧
    (stripPath (str "/a//?q")).getLast? ≠ some 47 :=
  stripPath_strips_all_trailing_slashes (str "/a//?q")

/-- C8: packet dispatch is compositional — processing a capture list
splits at any point, so no frame's outcome can stop the processing of
subsequent frames — and a frame shorter than `ETH_LENGTH` (whose
Ethernet-header unpack raises, caught by the per-packet handler)
produces no alert, leaves the heuristic state unchanged, and is
equivalent to not having been captured at all. -/
theorem decode_errors_contained :
    (∀ (ts : Trails) (threshold : Nat) (dl : Bool) (l1 l2 : List (Bytes × Nat × Nat))
        (cs : Counters),
      runPackets ts threshold dl (l1 ++ l2) cs =
        ((runPackets ts threshold dl l2 (runPackets ts threshold dl l1 cs).1).1,
         (runPackets ts threshold dl l1 cs).2 ++
           (runPackets ts threshold dl l2 (runPackets ts threshold dl l1 cs).1).2)) ∧
    (∀ (ts : Trails) (threshold : Nat) (cs : Counters) (bad : Bytes) (sec usec : Nat),
      bad.length < ETH_LENGTH → processPacket ts threshold false cs bad sec usec = (cs, [])) ∧
    (∀ (ts : Trails) (threshold : Nat) (cs : Counters) (pre post : List (Bytes × Nat × Nat))
        (bad : Bytes) (sec usec : Nat), bad.length < ETH_LENGTH →
      runPackets ts threshold false (pre ++ (bad, sec, usec) :: post) cs =
        runPackets ts threshold false (pre ++ post) cs) := by
  refine ⟨fun ts thr dl l1 l2 cs => runPackets_append ts thr dl l1 l2 cs, ?_, ?_⟩
  · intro ts thr cs bad sec usec h
    exact processPacket_short h
  · intro ts thr cs pre post bad sec usec h
    rw [runPackets_append, runPackets_append]
    have hb : processPacket ts thr false (runPackets ts thr false pre cs).1 bad sec usec
        = ((runPackets ts thr false pre cs).1, []) := processPacket_short h
    simp [runPackets, hb]

/-- C8 witness: inserting a concrete 3-byte frame between two SYN frames
changes nothing. -/
theorem decode_errors_contained_witness :
    runPackets tsSyn 10 false
        [(synPkt, 1000, 0), (([1, 2, 3] : Bytes), 1, 2), (synPkt, 1000, 0)] [] =
      runPackets tsSyn 10 false [(synPkt, 1000, 0), (synPkt, 1000, 0)] [] := by
  have h := decode_errors_contained.2.2 tsSyn 10 [] [(synPkt, 1000, 0)] [(synPkt, 1000, 0)]
    [1, 2, 3] 1 2 (by decide)
  simpa using h

/-- C9: when the stripped URI is empty the candidate list is the single
empty candidate, whose bare lookup is skipped (`path and ...` is falsy)
while the `host + path` lookup degenerates to the bare Host value; on
the concrete `GET /` request with `Host: example.com` against
`TS.URL = {"example.com"}`, one URL alert with value `example.com` is
emitted. -/
theorem empty_path_host_match :
    (∀ (tsUrl : TrailMap) (host : Bytes) (uri : Bytes), stripPath uri = [] →
      urlLoop tsUrl host (buildPaths (stripPath uri)) =
        (alookup tsUrl host).map (fun v => (host, v))) ∧
    (processPacket tsUrlHost 10 false [] rootPkt 1000 0).2 =
      [⟨1000, 0, str "10.0.0.1", some 55555, str "5.6.7.8", some 80, str "TCP", TrailKind.URL,
        str "example.com", str "pZ", str "sZ"⟩] := by
  refine ⟨?_, by decide⟩
  intro tsUrl host uri h
  rw [h]
  have hbp : buildPaths [] = [[]] := by rfl
  rw [hbp]
  cases hv : alookup tsUrl host <;> simp [urlLoop, hv, List.append_nil]

/-- C9 witness: the empty-candidate lookup at the concrete URI `/` and
host `example.com`. -/
theorem empty_path_host_match_witness :
    urlLoop tsUrlHost.url (str "example.com") (buildPaths (stripPath (str "/"))) =
      (alookup tsUrlHost.url (str "example.com")).map
        (fun v => (str "example.com", v)) :=
  empty_path_host_match.1 tsUrlHost.url (str "example.com") (str "/") (by decide)

/-- C10: for a UDP frame with `src_port ≠ 53` and `dst_port = 53` the
branch runs the IP-trail check and then the DNS parse on the same frame
(its events are the IP-lookup events followed by the DNS-section
events), and the concrete outgoing query frame whose `dst_ip` is in
`TS.IP` and whose question name has a suffix in `TS.DNS` emits exactly
two alerts: the IP-trail alert first, then the DNS-trail alert. -/
theorem udp_dns_dual_alerts :
    (∀ (ts : Trails) (threshold : Nat) (cs : Counters) (sec usec : Nat) (sip dip : Bytes)
        (pkt : Bytes) (iph : Nat),
      (pySlice pkt (iph + ETH_LENGTH) (iph + ETH_LENGTH + 4)).length = 4 →
      be16 (bt pkt (iph + ETH_LENGTH)) (bt pkt (iph + ETH_LENGTH + 1)) ≠ 53 →
      be16 (bt pkt (iph + ETH_LENGTH + 2)) (bt pkt (iph + ETH_LENGTH + 3)) = 53 →
      udpEvents ts threshold cs sec usec sip dip pkt iph =
        ((dnsEvents ts.dns threshold cs sec usec sip
            (be16 (bt pkt (iph + ETH_LENGTH)) (bt pkt (iph + ETH_LENGTH + 1))) dip
            (be16 (bt pkt (iph + ETH_LENGTH + 2)) (bt pkt (iph + ETH_LENGTH + 3)))
            (pkt.drop (ETH_LENGTH + iph + 8))).1,
         ipAlertEvents ts.ip sec usec sip
            (some (be16 (bt pkt (iph + ETH_LENGTH)) (bt pkt (iph + ETH_LENGTH + 1)))) dip
            (some (be16 (bt pkt (iph + ETH_LENGTH + 2)) (bt pkt (iph + ETH_LENGTH + 3))))
            (str "UDP") ++
          (dnsEvents ts.dns threshold cs sec usec sip
            (be16 (bt pkt (iph + ETH_LENGTH)) (bt pkt (iph + ETH_LENGTH + 1))) dip
            (be16 (bt pkt (iph + ETH_LENGTH + 2)) (bt pkt (iph + ETH_LENGTH + 3)))
            (pkt.drop (ETH_LENGTH + iph + 8))).2)) ∧
    (processPacket tsBoth 10 false [] dnsQueryPkt 1000 0).2 =
      [⟨1000, 0, str "10.0.0.1", some 5353, str "3.3.3.3", some 53, str "UDP", TrailKind.IP,
        str "3.3.3.3", str "bip", str "sip"⟩,
       ⟨1000, 0, str "10.0.0.1", some 5353, str "3.3.3.3", some 53, str "UDP", TrailKind.DNS,
        str "(sub.)bad.example", str "pY", str "sY"⟩] := by
  refine ⟨?_, by decide⟩
  intro ts thr cs sec usec sip dip pkt iph h4 hs hd
  simp only [udpEvents]
  rw [if_neg (show ¬ (pySlice pkt (iph + ETH_LENGTH) (iph + ETH_LENGTH + 4)).length < 4 by
        omega),
      if_pos hs, if_pos (Or.inl hd)]

/-- C10 witness: the dual-path equation applied to the concrete query
frame, which yields two alerts. -/
theorem udp_dns_dual_alerts_witness :
    (udpEvents tsBoth 10 [] 1000 0 (str "10.0.0.1") (str "3.3.3.3")
      dnsQueryPkt 20).2.length = 2 := by
  rw [udp_dns_dual_alerts.1 tsBoth 10 [] 1000 0 (str "10.0.0.1") (str "3.3.3.3") dnsQueryPkt
    20 (by decide) (by decide) (by decide)]
  decide

end Maltrail
